import Mathlib

/-!
# Verification of the in-memory Book Registry REST API (`src/app.js`)

A shallow embedding of the Express CRUD application over the in-memory
`books` array. Route handlers become pure functions from the request data
and the current registry to an HTTP response and the next registry.
Since `generateUniqueId` draws from `Math.random`, the freshly generated
id is passed to the create handler as an explicit parameter.
Request-body fields are `Option String`: `none` is an absent (undefined)
field, and `jsFalsy` captures JavaScript falsiness of such a field value
(absent or the empty string).
-/

/-- A book record: `{ id, title, author }` in `src/app.js`. -/
structure Book where
  id : String
  title : String
  author : String
deriving DecidableEq, Repr

/-- JavaScript falsiness of a request-body string field: `undefined`
(modelled as `none`) and the empty string are falsy. -/
def jsFalsy : Option String → Bool
  | none => true
  | some s => s == ""

/-- The seed registry `books` initialised at lines 12-16 of `src/app.js`. -/
def seedBooks : List Book :=
  [ { id := "1", title := "The Hitchhiker\x27s Guide to the Galaxy", author := "Douglas Adams" },
    { id := "2", title := "Pride and Prejudice", author := "Jane Austen" },
    { id := "3", title := "1984", author := "George Orwell" } ]

/-- The body of an HTTP JSON response: a single book, the whole list,
an error object `{ message }`, or no content (204). -/
inductive JsonBody where
  | bookJson : Book → JsonBody
  | booksJson : List Book → JsonBody
  | messageJson : String → JsonBody
  | emptyBody : JsonBody
deriving DecidableEq, Repr

/-- An HTTP response: status code and JSON body. -/
structure HttpResponse where
  status : Nat
  body : JsonBody
deriving DecidableEq, Repr

/-- `GET /books` (lines 28-31): returns the whole registry, no mutation. -/
def handleGetBooks (books : List Book) : HttpResponse × List Book :=
  ({ status := 200, body := .booksJson books }, books)

/-- `GET /books/:id` (lines 35-45): `books.find(b => b.id === id)`,
200 with the book when found, otherwise 404 `{ message }`. -/
def handleGetBook (id : String) (books : List Book) : HttpResponse × List Book :=
  match books.find? (fun b => b.id == id) with
  | some book => ({ status := 200, body := .bookJson book }, books)
  | none => ({ status := 404, body := .messageJson "Book not found" }, books)

/-- `POST /books` (lines 50-68): rejects with 400 when `!title || !author`;
otherwise pushes `{ id: generateUniqueId(), title, author }` and answers
201 with the new book. The generated id is the `newId` parameter. -/
def handlePostBooks (newId : String) (title author : Option String)
    (books : List Book) : HttpResponse × List Book :=
  if jsFalsy title || jsFalsy author then
    ({ status := 400, body := .messageJson "Title and Author are required" }, books)
  else
    let newBook : Book := { id := newId, title := title.getD "", author := author.getD "" }
    ({ status := 201, body := .bookJson newBook }, books ++ [newBook])

/-- The in-place mutation of the first record matching `id` performed by
`PUT /books/:id` (lines 78-85): `findIndex` walks the list front to back,
and on the match the record's fields become `title || old` and
`author || old`. Returns the updated record and the new list, or `none`
when `findIndex` yields `-1`. -/
def updateFirst (id : String) (title author : Option String) :
    List Book → Option (Book × List Book)
  | [] => none
  | b :: rest =>
    if b.id == id then
      let b' : Book :=
        { b with
          title := if jsFalsy title then b.title else title.getD "",
          author := if jsFalsy author then b.author else author.getD "" }
      some (b', b' :: rest)
    else
      match updateFirst id title author rest with
      | none => none
      | some (u, rest') => some (u, b :: rest')

/-- `PUT /books/:id` (lines 73-89): 200 with the updated book when a
record matches, otherwise 404 `{ message }` and no mutation. -/
def handlePutBook (id : String) (title author : Option String)
    (books : List Book) : HttpResponse × List Book :=
  match updateFirst id title author books with
  | some (u, books') => ({ status := 200, body := .bookJson u }, books')
  | none => ({ status := 404, body := .messageJson "Book not found" }, books)

/-- `DELETE /books/:id` (lines 93-105): `books = books.filter(b => b.id !== id)`;
204 with empty body when the length shrank, otherwise 404 `{ message }`. -/
def handleDeleteBook (id : String) (books : List Book) : HttpResponse × List Book :=
  let books' := books.filter (fun b => b.id != id)
  if books'.length < books.length then
    ({ status := 204, body := .emptyBody }, books')
  else
    ({ status := 404, body := .messageJson "Book not found" }, books)

/-- The spec's update-field rule, stated in its own words: a supplied
non-empty field overwrites the stored value, an omitted or empty field
leaves it unchanged. Compared against the embedded `updateFirst`. -/
def specUpdateField (supplied : Option String) (stored : String) : String :=
  match supplied with
  | none => stored
  | some s => if s = "" then stored else s

/-- One API call step between registry states: a create with some
generated id, an update, or a delete. -/
inductive Step : List Book → List Book → Prop where
  | create (newId : String) (title author : Option String) (books : List Book) :
      Step books (handlePostBooks newId title author books).2
  | update (id : String) (title author : Option String) (books : List Book) :
      Step books (handlePutBook id title author books).2
  | delete (id : String) (books : List Book) :
      Step books (handleDeleteBook id books).2

/-- Registry states reachable from the seed by any sequence of create,
update and delete calls, with arbitrary generated ids. -/
inductive Reachable : List Book → Prop where
  | seed : Reachable seedBooks
  | step {s s' : List Book} : Reachable s → Step s s' → Reachable s'

/-- Registry states reachable from the seed when every generated id is
fresh: it differs from every id already in the registry. -/
inductive ReachableFresh : List Book → Prop where
  | seed : ReachableFresh seedBooks
  | create {s : List Book} (newId : String) (title author : Option String) :
      ReachableFresh s → (∀ b ∈ s, b.id ≠ newId) →
      ReachableFresh (handlePostBooks newId title author s).2
  | update {s : List Book} (id : String) (title author : Option String) :
      ReachableFresh s → ReachableFresh (handlePutBook id title author s).2
  | delete {s : List Book} (id : String) :
      ReachableFresh s → ReachableFresh (handleDeleteBook id s).2

/-! ## Helper lemmas -/

theorem jsFalsy_eq_false (o : Option String) :
    jsFalsy o = false ↔ ∃ s, o = some s ∧ s ≠ "" := by
  cases o with
  | none => simp [jsFalsy]
  | some s => simp [jsFalsy]

theorem jsField_eq_specUpdateField (o : Option String) (stored : String) :
    (if jsFalsy o then stored else o.getD "") = specUpdateField o stored := by
  cases o with
  | none => rfl
  | some s =>
    by_cases h : s = ""
    · simp [jsFalsy, specUpdateField, h]
    · simp [jsFalsy, specUpdateField, h]

theorem specUpdateField_ne_empty (o : Option String) (stored : String)
    (h : stored ≠ "") : specUpdateField o stored ≠ "" := by
  cases o with
  | none => exact h
  | some s =>
    by_cases hs : s = ""
    · simp [specUpdateField, hs, h]
    · simp [specUpdateField, hs]


theorem updateFirst_eq_none (id : String) (title author : Option String)
    (l : List Book) :
    updateFirst id title author l = none ↔ ∀ b ∈ l, b.id ≠ id := by
  induction l with
  | nil => simp [updateFirst]
  | cons b rest ih =>
    by_cases h : b.id = id
    · simp [updateFirst, h]
    · have hb : (b.id == id) = false := by simp [h]
      cases hrec : updateFirst id title author rest with
      | none =>
        simp only [updateFirst, hb, Bool.false_eq_true, if_false, hrec,
          List.mem_cons]
        constructor
        · intro _ x hx
          rcases hx with rfl | hx
          · exact h
          · exact (ih.mp hrec) x hx
        · intro _; trivial
      | some p =>
        obtain ⟨u, rest'⟩ := p
        simp only [updateFirst, hb, Bool.false_eq_true, if_false, hrec,
          List.mem_cons]
        constructor
        · intro hc; cases hc
        · intro hall
          have hn : updateFirst id title author rest = none :=
            ih.mpr fun x hx => hall x (Or.inr hx)
          rw [hn] at hrec; cases hrec

theorem updateFirst_some (id : String) (title author : Option String)
    (l : List Book) (u : Book) (l' : List Book)
    (h : updateFirst id title author l = some (u, l')) :
    ∃ pre old post, l = pre ++ old :: post ∧ l' = pre ++ u :: post ∧
      (∀ b ∈ pre, b.id ≠ id) ∧ old.id = id ∧
      u.id = old.id ∧ u.title = specUpdateField title old.title ∧
      u.author = specUpdateField author old.author := by
  induction l generalizing u l' with
  | nil => simp [updateFirst] at h
  | cons b rest ih =>
    by_cases hb : b.id = id
    · have hbeq : (b.id == id) = true := by simp [hb]
      simp only [updateFirst, hbeq, if_true] at h
      injection h with h1
      injection h1 with hu hl'
      refine ⟨[], b, rest, by simp, by simp [← hl', hu], by simp, hb, ?_, ?_, ?_⟩
      · rw [← hu]
      · rw [← hu]
        exact jsField_eq_specUpdateField title b.title
      · rw [← hu]
        exact jsField_eq_specUpdateField author b.author
    · have hbeq : (b.id == id) = false := by simp [hb]
      simp only [updateFirst, hbeq, Bool.false_eq_true, if_false] at h
      cases hrec : updateFirst id title author rest with
      | none => rw [hrec] at h; cases h
      | some p =>
        obtain ⟨u0, rest'⟩ := p
        rw [hrec] at h
        injection h with h1
        injection h1 with hu hl'
        subst hu
        obtain ⟨pre, old, post, hrl, hrl', hpre, hold, hid, ht, ha⟩ :=
          ih u0 rest' hrec
        refine ⟨b :: pre, old, post, by simp [hrl], by simp [← hl', hrl'],
          ?_, hold, hid, ht, ha⟩
        intro x hx
        rcases List.mem_cons.mp hx with rfl | hx
        · exact hb
        · exact hpre x hx

theorem updateFirst_decomp (id : String) (title author : Option String)
    (pre post : List Book) (old : Book)
    (hpre : ∀ b ∈ pre, b.id ≠ id) (hold : old.id = id) :
    updateFirst id title author (pre ++ old :: post) =
      some ({ id := old.id, title := specUpdateField title old.title,
              author := specUpdateField author old.author },
            pre ++ { id := old.id, title := specUpdateField title old.title,
                     author := specUpdateField author old.author } :: post) := by
  induction pre with
  | nil =>
    have hbeq : (old.id == id) = true := by simp [hold]
    simp only [List.nil_append, updateFirst, hbeq, if_true,
      jsField_eq_specUpdateField]
  | cons b pre ih =>
    have hb : (b.id == id) = false := by simp [hpre b (by simp)]
    have ihh := ih fun x hx => hpre x (List.mem_cons_of_mem _ hx)
    rw [List.cons_append]
    simp only [updateFirst, hb, Bool.false_eq_true, if_false, List.append_eq,
      ihh]
    rfl

example : (handleGetBook "1" seedBooks).1.status = 200 := by decide
example : (handleGetBook "9" seedBooks).1.status = 404 := by decide
example : (handlePostBooks "x1" (some "Dune") (some "Herbert") seedBooks).1.status = 201 := by
  decide
example : (handlePostBooks "x1" none (some "Herbert") seedBooks).1.status = 400 := by decide
example :
    (handlePutBook "2" (some "P") none seedBooks).2 =
      [ { id := "1", title := "The Hitchhiker\x27s Guide to the Galaxy",
          author := "Douglas Adams" },
        { id := "2", title := "P", author := "Jane Austen" },
        { id := "3", title := "1984", author := "George Orwell" } ] := by decide
example : (handleDeleteBook "3" seedBooks).1.status = 204 := by decide
example : (handleDeleteBook "3" seedBooks).2.length = 2 := by decide

/-! ## Create evaluation helper -/

theorem post_valid_eq (newId title author : String) (books : List Book)
    (ht : title ≠ "") (ha : author ≠ "") :
    handlePostBooks newId (some title) (some author) books =
      ({ status := 201,
         body := .bookJson { id := newId, title := title, author := author } },
       books ++ [{ id := newId, title := title, author := author }]) := by
  have h1 : jsFalsy (some title) = false := by simp [jsFalsy, ht]
  have h2 : jsFalsy (some author) = false := by simp [jsFalsy, ha]
  simp [handlePostBooks, h1, h2]

/-! ## Claims -/

/-- C1: for every non-empty `title` and `author`, and a generated id that
is new to the registry (as the spec requires of id generation), `Create`
succeeds with 201 and returns a book `b` with exactly those fields, and
`Get b.id` on the resulting registry answers 200 with that same book. -/
theorem C1_create_then_get (newId title author : String) (books : List Book)
    (ht : title ≠ "") (ha : author ≠ "")
    (hfresh : ∀ b ∈ books, b.id ≠ newId) :
    ∃ resp books' b,
      handlePostBooks newId (some title) (some author) books = (resp, books') ∧
      resp.status = 201 ∧ resp.body = .bookJson b ∧
      b.title = title ∧ b.author = author ∧
      handleGetBook b.id books' =
        ({ status := 200, body := .bookJson b }, books') := by
  refine ⟨_, _, { id := newId, title := title, author := author },
    post_valid_eq newId title author books ht ha, rfl, rfl, rfl, rfl, ?_⟩
  have hfind : books.find? (fun b => b.id == newId) = none :=
    List.find?_eq_none.mpr fun x hx => by simp [hfresh x hx]
  simp [handleGetBook, List.find?_append, hfind]

/-- C1 witness at a concrete input. -/
theorem C1_witness :
    ∃ resp books' b,
      handlePostBooks "x9z" (some "Dune") (some "Herbert") seedBooks =
        (resp, books') ∧
      resp.status = 201 ∧ resp.body = .bookJson b ∧
      b.title = "Dune" ∧ b.author = "Herbert" ∧
      handleGetBook b.id books' =
        ({ status := 200, body := .bookJson b }, books') :=
  C1_create_then_get "x9z" "Dune" "Herbert" seedBooks (by decide) (by decide)
    (by decide)

/-- C2: `Update` answers 404 and leaves the registry unchanged when no
record matches the id; when the first match is `old`, each supplied
non-empty field overwrites the stored one, each omitted or empty field is
kept (`specUpdateField`), and the updated book is returned with 200. In
particular `author = none` leaves the stored author unchanged. -/
theorem C2_update_semantics (id : String) (title author : Option String)
    (books : List Book) :
    ((∀ b ∈ books, b.id ≠ id) →
      handlePutBook id title author books =
        ({ status := 404, body := .messageJson "Book not found" }, books)) ∧
    (∀ pre old post, books = pre ++ old :: post →
      (∀ b ∈ pre, b.id ≠ id) → old.id = id →
      handlePutBook id title author books =
        ({ status := 200,
           body := .bookJson
             { id := old.id, title := specUpdateField title old.title,
               author := specUpdateField author old.author } },
         pre ++ { id := old.id, title := specUpdateField title old.title,
                  author := specUpdateField author old.author } :: post)) := by
  constructor
  · intro hall
    have hn := (updateFirst_eq_none id title author books).mpr hall
    simp [handlePutBook, hn]
  · intro pre old post hdecomp hpre hold
    subst hdecomp
    have hu := updateFirst_decomp id title author pre post old hpre hold
    simp [handlePutBook, hu]

/-- C2 witness: update of a missing id, and an update of book `"2"` with
the author omitted, which keeps `"Jane Austen"`. -/
theorem C2_witness :
    handlePutBook "9" (some "T") (some "A") seedBooks =
      ({ status := 404, body := .messageJson "Book not found" }, seedBooks) ∧
    handlePutBook "2" (some "PPRevised") none seedBooks =
      ({ status := 200,
         body := .bookJson
           { id := "2", title := "PPRevised", author := "Jane Austen" } },
       [ { id := "1", title := "The Hitchhiker\x27s Guide to the Galaxy",
           author := "Douglas Adams" },
         { id := "2", title := "PPRevised", author := "Jane Austen" },
         { id := "3", title := "1984", author := "George Orwell" } ]) := by
  constructor
  · exact (C2_update_semantics "9" (some "T") (some "A") seedBooks).1 (by decide)
  · have h := (C2_update_semantics "2" (some "PPRevised") none seedBooks).2
      [{ id := "1", title := "The Hitchhiker\x27s Guide to the Galaxy",
         author := "Douglas Adams" }]
      { id := "2", title := "Pride and Prejudice", author := "Jane Austen" }
      [{ id := "3", title := "1984", author := "George Orwell" }]
      (by decide) (by decide) rfl
    exact h

/-- C4: `Create` with an absent or empty title or author answers 400 with
the error message and leaves the registry unchanged. -/
theorem C4_create_invalid (newId : String) (title author : Option String)
    (books : List Book)
    (h : title = none ∨ title = some "" ∨ author = none ∨ author = some "") :
    handlePostBooks newId title author books =
      ({ status := 400, body := .messageJson "Title and Author are required" },
       books) := by
  have hor : (jsFalsy title || jsFalsy author) = true := by
    rcases h with rfl | rfl | rfl | rfl <;> simp [jsFalsy]
  simp [handlePostBooks, hor]

/-- C4 witness: a create with the title absent. -/
theorem C4_witness :
    handlePostBooks "w" none (some "A") seedBooks =
      ({ status := 400, body := .messageJson "Title and Author are required" },
       seedBooks) :=
  C4_create_invalid "w" none (some "A") seedBooks (Or.inl rfl)

/-- C8: a valid `Create` answers 201 with the new book carrying the
generated id, and the new registry is the old one with that book appended
at the end: it grows by exactly one and every pre-existing record keeps
its place. -/
theorem C8_create_success (newId title author : String) (books : List Book)
    (ht : title ≠ "") (ha : author ≠ "") :
    handlePostBooks newId (some title) (some author) books =
      ({ status := 201,
         body := .bookJson { id := newId, title := title, author := author } },
       books ++ [{ id := newId, title := title, author := author }]) :=
  post_valid_eq newId title author books ht ha

/-- C8 witness at a concrete input. -/
theorem C8_witness :
    handlePostBooks "n1" (some "Dune") (some "Herbert") seedBooks =
      ({ status := 201,
         body := .bookJson { id := "n1", title := "Dune", author := "Herbert" } },
       seedBooks ++ [{ id := "n1", title := "Dune", author := "Herbert" }]) :=
  C8_create_success "n1" "Dune" "Herbert" seedBooks (by decide) (by decide)

/-- C7: `Get` never mutates the registry; when some record matches the id
it answers 200 with a matching record, and it answers the 404 message
exactly when no record with that id exists. -/
theorem C7_get_semantics (id : String) (books : List Book) :
    (handleGetBook id books).2 = books ∧
    ((∃ b ∈ books, b.id = id) →
      ∃ b, b ∈ books ∧ b.id = id ∧
        (handleGetBook id books).1 = { status := 200, body := .bookJson b }) ∧
    ((handleGetBook id books).1 =
        { status := 404, body := .messageJson "Book not found" } ↔
      ∀ b ∈ books, b.id ≠ id) := by
  cases hfind : books.find? (fun b => b.id == id) with
  | none =>
    have hall := List.find?_eq_none.mp hfind
    refine ⟨by simp [handleGetBook, hfind], ?_, ?_⟩
    · rintro ⟨b, hb, hbid⟩
      exact absurd (by simp [hbid]) (hall b hb)
    · constructor
      · intro _ b hb
        simpa using hall b hb
      · intro _
        simp [handleGetBook, hfind]
  | some b =>
    have hmem := List.mem_of_find?_eq_some hfind
    have hbid : b.id = id := by simpa using List.find?_some hfind
    refine ⟨by simp [handleGetBook, hfind], ?_, ?_⟩
    · intro _
      exact ⟨b, hmem, hbid, by simp [handleGetBook, hfind]⟩
    · constructor
      · intro hcontra
        simp [handleGetBook, hfind] at hcontra
      · intro hall
        exact absurd hbid (hall b hmem)

/-- C7 witness: a hit on id `"3"` and a miss on id `"9"`. -/
theorem C7_witness :
    (handleGetBook "3" seedBooks).2 = seedBooks ∧
    (∃ b, b ∈ seedBooks ∧ b.id = "3" ∧
      (handleGetBook "3" seedBooks).1 = { status := 200, body := .bookJson b }) ∧
    (handleGetBook "9" seedBooks).1 =
      { status := 404, body := .messageJson "Book not found" } :=
  ⟨(C7_get_semantics "3" seedBooks).1,
   (C7_get_semantics "3" seedBooks).2.1
     ⟨{ id := "3", title := "1984", author := "George Orwell" }, by decide, rfl⟩,
   (C7_get_semantics "9" seedBooks).2.2.mpr (by decide)⟩

/-- C6: when `Delete id` succeeds (status 204), `Get id` on the resulting
registry answers the 404 message. -/
theorem C6_delete_then_get (id : String) (books : List Book)
    (h : (handleDeleteBook id books).1.status = 204) :
    (handleGetBook id (handleDeleteBook id books).2).1 =
      { status := 404, body := .messageJson "Book not found" } := by
  by_cases hlt : (books.filter (fun b => b.id != id)).length < books.length
  · have h2 : (handleDeleteBook id books).2 =
        books.filter (fun b => b.id != id) := by
      simp [handleDeleteBook, hlt]
    rw [h2]
    have hfind : (books.filter (fun b => b.id != id)).find?
        (fun b => b.id == id) = none := by
      apply List.find?_eq_none.mpr
      intro x hx
      have hne := (List.mem_filter.mp hx).2
      simp at hne ⊢
      exact hne
    simp [handleGetBook, hfind]
  · exfalso
    have h4 : (handleDeleteBook id books).1.status = 404 := by
      simp [handleDeleteBook, hlt]
    exact absurd (h4.symm.trans h) (by decide)

/-- C6 witness: deleting the seed book `"3"`. -/
theorem C6_witness :
    (handleDeleteBook "3" seedBooks).1.status = 204 ∧
    (handleGetBook "3" (handleDeleteBook "3" seedBooks).2).1 =
      { status := 404, body := .messageJson "Book not found" } :=
  ⟨by decide, C6_delete_then_get "3" seedBooks (by decide)⟩

/-- C5: with unique ids in the registry, `Delete id` answers the 404
message and leaves the registry unchanged when no record matches; when a
record matches, it answers 204 with no content, the registry shrinks by
exactly one, no record with that id remains, and every other record is
kept. -/
theorem C5_delete_semantics (id : String) (books : List Book)
    (hnodup : (books.map Book.id).Nodup) :
    ((∀ b ∈ books, b.id ≠ id) →
      handleDeleteBook id books =
        ({ status := 404, body := .messageJson "Book not found" }, books)) ∧
    (∀ target, target ∈ books → target.id = id →
      (handleDeleteBook id books).1 = { status := 204, body := .emptyBody } ∧
      (handleDeleteBook id books).2.length + 1 = books.length ∧
      (∀ b ∈ (handleDeleteBook id books).2, b.id ≠ id) ∧
      (∀ b ∈ books, b.id ≠ id → b ∈ (handleDeleteBook id books).2)) := by
  constructor
  · intro hall
    have hfe : books.filter (fun b => b.id != id) = books :=
      List.filter_eq_self.mpr fun a ha => by simpa using hall a ha
    simp [handleDeleteBook, hfe]
  · intro target htmem htid
    obtain ⟨pre, post, hdecomp⟩ := List.append_of_mem htmem
    subst hdecomp
    have hnodup' := hnodup
    rw [List.map_append, List.map_cons] at hnodup'
    obtain ⟨h1, h2, hdisj⟩ := List.nodup_append.mp hnodup'
    have hpre : ∀ b ∈ pre, b.id ≠ id := by
      intro b hb heq
      exact hdisj (List.mem_map_of_mem Book.id hb)
        (by simp [heq, htid])
    have hpost : ∀ b ∈ post, b.id ≠ id := by
      intro b hb heq
      have hni : target.id ∉ post.map Book.id := (List.nodup_cons.mp h2).1
      exact hni (by rw [htid, ← heq]; exact List.mem_map_of_mem Book.id hb)
    have ht : (target.id != id) = false := by simp [htid]
    have hpf : pre.filter (fun b => b.id != id) = pre :=
      List.filter_eq_self.mpr fun a ha => by simpa using hpre a ha
    have hpof : post.filter (fun b => b.id != id) = post :=
      List.filter_eq_self.mpr fun a ha => by simpa using hpost a ha
    have hfeq : (pre ++ target :: post).filter (fun b => b.id != id) =
        pre ++ post := by
      simp [List.filter_append, List.filter_cons, ht, hpf, hpof]
    have hlt : ((pre ++ target :: post).filter
        (fun b => b.id != id)).length < (pre ++ target :: post).length := by
      rw [hfeq]
      simp
    have hres : handleDeleteBook id (pre ++ target :: post) =
        ({ status := 204, body := .emptyBody }, pre ++ post) := by
      simp [handleDeleteBook, hlt, hfeq]
    rw [hres]
    refine ⟨rfl, by simp; omega, ?_, ?_⟩
    · intro b hb
      rcases List.mem_append.mp hb with hb | hb
      · exact hpre b hb
      · exact hpost b hb
    · intro b hb hbne
      rcases List.mem_append.mp hb with hb | hb
      · exact List.mem_append.mpr (Or.inl hb)
      · rcases List.mem_cons.mp hb with rfl | hb
        · exact absurd htid hbne
        · exact List.mem_append.mpr (Or.inr hb)

/-- C5 witness: deletes of a missing id `"9"` and of the seed book `"3"`. -/
theorem C5_witness :
    handleDeleteBook "9" seedBooks =
      ({ status := 404, body := .messageJson "Book not found" }, seedBooks) ∧
    (handleDeleteBook "3" seedBooks).1 = { status := 204, body := .emptyBody } ∧
    (handleDeleteBook "3" seedBooks).2.length + 1 = seedBooks.length := by
  refine ⟨(C5_delete_semantics "9" seedBooks (by decide)).1 (by decide), ?_, ?_⟩
  all_goals
    have h := (C5_delete_semantics "3" seedBooks (by decide)).2
      { id := "3", title := "1984", author := "George Orwell" } (by decide) rfl
  exacts [h.1, h.2.1]

/-- C9: a successful `Update` only rewrites the first matched record: the
registry splits as `pre ++ old :: post` and becomes `pre ++ new :: post`
with `new.id = old.id`, so the matched record keeps its id and place,
every other record, the length and the order are all unchanged. -/
theorem C9_update_frame (id : String) (title author : Option String)
    (books : List Book) (resp : HttpResponse) (books' : List Book)
    (h : handlePutBook id title author books = (resp, books'))
    (hs : resp.status = 200) :
    ∃ pre old new post,
      books = pre ++ old :: post ∧ books' = pre ++ new :: post ∧
      new.id = old.id ∧ old.id = id ∧ (∀ b ∈ pre, b.id ≠ id) ∧
      books'.length = books.length := by
  cases hu : updateFirst id title author books with
  | none =>
    simp [handlePutBook, hu] at h
    rw [← h.1] at hs
    exact absurd hs (by decide)
  | some p =>
    obtain ⟨u, l'⟩ := p
    simp [handlePutBook, hu] at h
    obtain ⟨hr, hb⟩ := h
    subst hb
    obtain ⟨pre, old, post, h1, h2, hpre, hold, hid, _, _⟩ :=
      updateFirst_some id title author books u l' hu
    exact ⟨pre, old, u, post, h1, h2, hid, hold, hpre,
      by rw [h2, h1]; simp⟩

/-- C9 witness: updating the seed book `"2"`. -/
theorem C9_witness :
    ∃ pre old new post,
      seedBooks = pre ++ old :: post ∧
      (handlePutBook "2" (some "X") (some "Y") seedBooks).2 =
        pre ++ new :: post ∧
      new.id = old.id ∧ old.id = "2" ∧ (∀ b ∈ pre, b.id ≠ "2") ∧
      (handlePutBook "2" (some "X") (some "Y") seedBooks).2.length =
        seedBooks.length :=
  C9_update_frame "2" (some "X") (some "Y") seedBooks
    (handlePutBook "2" (some "X") (some "Y") seedBooks).1
    (handlePutBook "2" (some "X") (some "Y") seedBooks).2 rfl (by decide)

/-- C10: with duplicate ids in the registry, `Delete id` removes every
matching record — no record with that id survives while every
non-matching record is kept — whereas `Get id` answers with the first
matching record and `Update` rewrites only that first matching record. -/
theorem C10_duplicate_ids (id : String) (title author : Option String)
    (books : List Book) :
    ((∀ b ∈ (handleDeleteBook id books).2, b.id ≠ id) ∧
     (∀ b ∈ books, b.id ≠ id → b ∈ (handleDeleteBook id books).2)) ∧
    (∀ pre old post, books = pre ++ old :: post →
      (∀ b ∈ pre, b.id ≠ id) → old.id = id →
      (handleGetBook id books).1 = { status := 200, body := .bookJson old } ∧
      ∃ new, handlePutBook id title author books =
        ({ status := 200, body := .bookJson new }, pre ++ new :: post) ∧
        new.id = old.id) := by
  constructor
  · by_cases hlt : (books.filter (fun b => b.id != id)).length < books.length
    · have h2 : (handleDeleteBook id books).2 =
          books.filter (fun b => b.id != id) := by
        simp [handleDeleteBook, hlt]
      rw [h2]
      constructor
      · intro b hb
        have hne := (List.mem_filter.mp hb).2
        simpa using hne
      · intro b hb hbne
        exact List.mem_filter.mpr ⟨hb, by simpa using hbne⟩
    · have hall : ∀ b ∈ books, b.id ≠ id := by
        have hnex := (not_iff_not.mpr
          List.length_filter_lt_length_iff_exists).mp hlt
        push_neg at hnex
        intro b hb
        have hx := hnex b hb
        simpa using hx
      have h2 : (handleDeleteBook id books).2 = books := by
        simp [handleDeleteBook, hlt]
      rw [h2]
      exact ⟨hall, fun b hb _ => hb⟩
  · intro pre old post hdecomp hpre hold
    subst hdecomp
    constructor
    · have hfp : pre.find? (fun b => b.id == id) = none :=
        List.find?_eq_none.mpr fun x hx => by simp [hpre x hx]
      have hfo : (old :: post).find? (fun b => b.id == id) = some old := by
        rw [List.find?_cons_of_pos]
        simp [hold]
      simp [handleGetBook, List.find?_append, hfp, hfo]
    · have hu := updateFirst_decomp id title author pre post old hpre hold
      refine ⟨{ id := old.id, title := specUpdateField title old.title,
                author := specUpdateField author old.author }, ?_, rfl⟩
      simp [handlePutBook, hu]

/-- C10 witness: a registry holding two records with id `"7"`: the delete
removes both (the registry shrinks from three records to one), the get
answers the first `"7"` record, and the update rewrites only that one. -/
theorem C10_witness :
    (∀ b ∈ (handleDeleteBook "7"
        [ { id := "7", title := "A", author := "B" },
          { id := "7", title := "C", author := "D" },
          { id := "8", title := "E", author := "F" } ]).2, b.id ≠ "7") ∧
    (handleDeleteBook "7"
        [ { id := "7", title := "A", author := "B" },
          { id := "7", title := "C", author := "D" },
          { id := "8", title := "E", author := "F" } ]).2.length = 1 ∧
    (handleGetBook "7"
        [ { id := "7", title := "A", author := "B" },
          { id := "7", title := "C", author := "D" },
          { id := "8", title := "E", author := "F" } ]).1 =
      { status := 200, body := .bookJson { id := "7", title := "A", author := "B" } } ∧
    ∃ new, handlePutBook "7" (some "X") none
        [ { id := "7", title := "A", author := "B" },
          { id := "7", title := "C", author := "D" },
          { id := "8", title := "E", author := "F" } ] =
      ({ status := 200, body := .bookJson new },
       [ new,
         { id := "7", title := "C", author := "D" },
         { id := "8", title := "E", author := "F" } ]) ∧ new.id = "7" := by
  have h := C10_duplicate_ids "7" (some "X") none
    [ { id := "7", title := "A", author := "B" },
      { id := "7", title := "C", author := "D" },
      { id := "8", title := "E", author := "F" } ]
  have h2 := h.2 []
    { id := "7", title := "A", author := "B" }
    [ { id := "7", title := "C", author := "D" },
      { id := "8", title := "E", author := "F" } ] rfl (by decide) rfl
  exact ⟨h.1.1, by decide, h2.1, h2.2⟩

/-! ## Preservation lemmas for the registry invariant -/

theorem post_snd_preserves_nonempty (newId : String)
    (title author : Option String) (s : List Book)
    (hs : ∀ b ∈ s, b.title ≠ "" ∧ b.author ≠ "") :
    ∀ b ∈ (handlePostBooks newId title author s).2,
      b.title ≠ "" ∧ b.author ≠ "" := by
  by_cases h : (jsFalsy title || jsFalsy author) = true
  · intro b hb
    rw [handlePostBooks] at hb
    rw [if_pos h] at hb
    exact hs b hb
  · have hff := Bool.or_eq_false_iff.mp (Bool.eq_false_iff.mpr h)
    obtain ⟨t, rfl, htne⟩ := (jsFalsy_eq_false title).mp hff.1
    obtain ⟨a, rfl, hane⟩ := (jsFalsy_eq_false author).mp hff.2
    intro b hb
    rw [handlePostBooks, if_neg (by simp [h])] at hb
    simp only [Option.getD_some] at hb
    rcases List.mem_append.mp hb with hb | hb
    · exact hs b hb
    · rcases List.mem_cons.mp hb with rfl | hb
      · exact ⟨htne, hane⟩
      · cases hb

theorem post_snd_map_id_nodup (newId : String)
    (title author : Option String) (s : List Book)
    (hnodup : (s.map Book.id).Nodup) (hfresh : ∀ b ∈ s, b.id ≠ newId) :
    (((handlePostBooks newId title author s).2).map Book.id).Nodup := by
  by_cases h : (jsFalsy title || jsFalsy author) = true
  · rw [handlePostBooks, if_pos h]
    exact hnodup
  · rw [handlePostBooks, if_neg (by simp [h])]
    rw [List.map_append]
    rw [List.nodup_append]
    refine ⟨hnodup, by simp, ?_⟩
    intro x hx
    obtain ⟨b, hb, rfl⟩ := List.mem_map.mp hx
    simpa using hfresh b hb

theorem put_snd_preserves_nonempty (id : String)
    (title author : Option String) (s : List Book)
    (hs : ∀ b ∈ s, b.title ≠ "" ∧ b.author ≠ "") :
    ∀ b ∈ (handlePutBook id title author s).2,
      b.title ≠ "" ∧ b.author ≠ "" := by
  cases hu : updateFirst id title author s with
  | none =>
    intro b hb
    simp only [handlePutBook, hu] at hb
    exact hs b hb
  | some p =>
    obtain ⟨u, l'⟩ := p
    obtain ⟨pre, old, post, h1, h2, _, _, _, ht, ha⟩ :=
      updateFirst_some id title author s u l' hu
    intro b hb
    simp only [handlePutBook, hu] at hb
    rw [h2] at hb
    have hold := hs old (by rw [h1]; simp)
    rcases List.mem_append.mp hb with hb | hb
    · exact hs b (by rw [h1]; exact List.mem_append.mpr (Or.inl hb))
    · rcases List.mem_cons.mp hb with rfl | hb
      · exact ⟨ht ▸ specUpdateField_ne_empty title old.title hold.1,
          ha ▸ specUpdateField_ne_empty author old.author hold.2⟩
      · exact hs b (by rw [h1]; simp [hb])

theorem put_snd_map_id (id : String) (title author : Option String)
    (s : List Book) :
    ((handlePutBook id title author s).2).map Book.id = s.map Book.id := by
  cases hu : updateFirst id title author s with
  | none => simp [handlePutBook, hu]
  | some p =>
    obtain ⟨u, l'⟩ := p
    obtain ⟨pre, old, post, h1, h2, _, _, hid, _, _⟩ :=
      updateFirst_some id title author s u l' hu
    simp only [handlePutBook, hu]
    rw [h2, h1]
    simp [hid]

theorem delete_snd_sublist (id : String) (s : List Book) :
    ((handleDeleteBook id s).2).Sublist s := by
  by_cases h : (s.filter (fun b => b.id != id)).length < s.length
  · rw [handleDeleteBook]
    simp only [if_pos h]
    exact List.filter_sublist s
  · rw [handleDeleteBook]
    simp only [if_neg h]
    exact List.Sublist.refl s

/-- C3 (amended): in every state reachable from the seed, the title and
author of every record are non-empty; and when every generated id is
fresh for the registry it is handed to (`ReachableFresh`), the ids also
stay unique. Unconditional id uniqueness fails because `generateUniqueId`
draws random tokens that the code never checks against the registry:
see the counterexample of two creates sharing one generated id. -/
theorem C3_registry_invariant (s : List Book) :
    (Reachable s → ∀ b ∈ s, b.title ≠ "" ∧ b.author ≠ "") ∧
    (ReachableFresh s →
      (s.map Book.id).Nodup ∧ ∀ b ∈ s, b.title ≠ "" ∧ b.author ≠ "") := by
  constructor
  · intro hr
    induction hr with
    | seed => decide
    | step hr hstep ih =>
      cases hstep with
      | create newId title author books =>
        exact post_snd_preserves_nonempty newId title author _ ih
      | update id title author books =>
        exact put_snd_preserves_nonempty id title author _ ih
      | delete id books =>
        exact fun b hb => ih b ((delete_snd_sublist id _).subset hb)
  · intro hr
    induction hr with
    | seed => exact ⟨by decide, by decide⟩
    | create newId title author hr hfresh ih =>
      exact ⟨post_snd_map_id_nodup newId title author _ ih.1 hfresh,
        post_snd_preserves_nonempty newId title author _ ih.2⟩
    | update id title author hr ih =>
      refine ⟨?_, put_snd_preserves_nonempty id title author _ ih.2⟩
      rw [put_snd_map_id]
      exact ih.1
    | delete id hr ih =>
      exact ⟨((delete_snd_sublist id _).map Book.id).nodup ih.1,
        fun b hb => ih.2 b ((delete_snd_sublist id _).subset hb)⟩

/-- C3 witness: the state after deleting book `"3"` from the seed is
reachable with fresh ids, so it has unique ids and non-empty fields. -/
theorem C3_witness :
    (((handleDeleteBook "3" seedBooks).2).map Book.id).Nodup ∧
    ∀ b ∈ (handleDeleteBook "3" seedBooks).2,
      b.title ≠ "" ∧ b.author ≠ "" :=
  (C3_registry_invariant (handleDeleteBook "3" seedBooks).2).2
    (ReachableFresh.delete "3" ReachableFresh.seed)

/-- C3 counterexample: the id generator is random and the code never
compares a generated id with the ids already stored, so the same token
can be generated twice. Two creates that both draw `"a1b2c3d4e"` yield a
reachable registry state whose ids are not unique, refuting the claim
that every reachable state has unique ids. -/
theorem C3_counterexample :
    Reachable ((handlePostBooks "a1b2c3d4e" (some "Dune") (some "Herbert")
        ((handlePostBooks "a1b2c3d4e" (some "Dune") (some "Herbert")
          seedBooks).2)).2) ∧
    ¬ ((((handlePostBooks "a1b2c3d4e" (some "Dune") (some "Herbert")
        ((handlePostBooks "a1b2c3d4e" (some "Dune") (some "Herbert")
          seedBooks).2)).2).map Book.id).Nodup) := by
  constructor
  · exact Reachable.step
      (Reachable.step Reachable.seed
        (Step.create "a1b2c3d4e" (some "Dune") (some "Herbert") seedBooks))
      (Step.create "a1b2c3d4e" (some "Dune") (some "Herbert") _)
  · decide
